import Mathlib

/-!
Verification of the connection-string parser and SAS-token issuer of the
Image-Resizing-App repository (`utils.js` / `credentials/index.js`).

JavaScript strings are modelled as Lean `String`s; the handful of string
primitives the source uses (`split(";")`, `trim`, `startsWith`, `endsWith`,
`search` with a literal pattern, `match(key + "=(.*)")`, `slice(0, -1)`,
`toLowerCase`) are given structural-recursive models over `List Char` below.
JavaScript exceptions are modelled with `Except JsError`; each distinct
`throw new Error(...)` message in the source gets its own `JsError`
constructor, and a JavaScript `TypeError` (e.g. `null[1]` after a failed
regex match, or calling a method on `undefined`) is `JsError.typeError`.
-/

namespace ImageApp

/-- Whitespace for the model of `String.prototype.trim`. -/
def isWsChar (c : Char) : Bool :=
  c == ' ' || c == '\t' || c == '\n' || c == '\r'

/-- Model of `String.prototype.trim` on the character list. -/
def trimList (l : List Char) : List Char :=
  ((l.dropWhile isWsChar).reverse.dropWhile isWsChar).reverse

/-- Model of `str.split(sep)` for a one-character separator. -/
def splitOnChar (sep : Char) : List Char → List (List Char)
  | [] => [[]]
  | c :: cs =>
    if c == sep then [] :: splitOnChar sep cs
    else
      match splitOnChar sep cs with
      | [] => [[c]]
      | g :: gs => (c :: g) :: gs

/-- Boolean list-prefix test. -/
def isPrefixL : List Char → List Char → Bool
  | [], _ => true
  | _ :: _, [] => false
  | a :: as, b :: bs => a == b && isPrefixL as bs

/-- Split a list at the first occurrence of `pat`, returning the part before
the occurrence and the part after it. `none` when `pat` does not occur. -/
def splitFirst (pat : List Char) : List Char → Option (List Char × List Char)
  | [] => if isPrefixL pat [] then some ([], []) else none
  | c :: cs =>
    if isPrefixL pat (c :: cs) then some ([], (c :: cs).drop pat.length)
    else
      match splitFirst pat cs with
      | none => none
      | some (pre, rest) => some (c :: pre, rest)

/-- Model of `str.search(pat) !== -1` for a literal pattern. -/
def containsSubstr (s pat : String) : Bool :=
  (splitFirst pat.data s.data).isSome

/-- Model of `str.startsWith(pre)`. -/
def jsStartsWith (s pre : String) : Bool :=
  isPrefixL pre.data s.data

/-- Model of `str.endsWith(suf)`. -/
def jsEndsWith (s suf : String) : Bool :=
  isPrefixL suf.data.reverse s.data.reverse

/-- Model of `str.trim()`. -/
def jsTrim (s : String) : String := String.mk (trimList s.data)

/-- Model of `str.toLowerCase()` (inputs here are ASCII). -/
def jsToLower (s : String) : String := String.mk (s.data.map Char.toLower)

/-- Model of `e.match(pat + "=(.*)")` restricted to the capture group: the
text after the first occurrence of `pat` in `e`, truncated at the first
newline (`.` does not match a newline in a JavaScript regex).  `none` models
a `null` match result. -/
def jsMatchCapture (e pat : List Char) : Option (List Char) :=
  match splitFirst pat e with
  | none => none
  | some (_, rest) => some (rest.takeWhile (fun c => c != '\n'))

/-- Value of one base64 alphabet character (`=` and foreign characters are
filtered out before decoding, as Node's lenient decoder does). -/
def b64Val (c : Char) : Option Nat :=
  if 'A' ≤ c ∧ c ≤ 'Z' then some (c.toNat - 65)
  else if 'a' ≤ c ∧ c ≤ 'z' then some (c.toNat - 97 + 26)
  else if '0' ≤ c ∧ c ≤ '9' then some (c.toNat - 48 + 52)
  else if c = '+' then some 62
  else if c = '/' then some 63
  else none

/-- Decode groups of base64 sextets into bytes. -/
def b64Bytes : List Nat → List Nat
  | a :: b :: c :: d :: rest =>
    (a * 4 + b / 16) :: ((b % 16) * 16 + c / 4) :: ((c % 4) * 64 + d) :: b64Bytes rest
  | [a, b] => [a * 4 + b / 16]
  | [a, b, c] => [a * 4 + b / 16, (b % 16) * 16 + c / 4]
  | _ => []

/-- Model of `Buffer.from(s, "base64")`: the decoded byte list. -/
def base64Decode (s : String) : List Nat :=
  b64Bytes (s.data.filterMap b64Val)

/-- The base64 alphabet, for encoding. -/
def b64Alphabet : List Char :=
  "ABCDEFGHIJKLMNOPQRSTUVWXYZabcdefghijklmnopqrstuvwxyz0123456789+/".data

def b64Char (n : Nat) : Char := b64Alphabet.getD n 'A'

/-- Encode bytes to base64 (model of `buffer.toString('base64')`). -/
def b64EncodeBytes : List Nat → List Char
  | a :: b :: c :: rest =>
    b64Char (a / 4) :: b64Char ((a % 4) * 16 + b / 16) ::
      b64Char ((b % 16) * 4 + c / 64) :: b64Char (c % 64) :: b64EncodeBytes rest
  | [a, b] =>
    [b64Char (a / 4), b64Char ((a % 4) * 16 + b / 16), b64Char ((b % 16) * 4), '=']
  | [a] => [b64Char (a / 4), b64Char ((a % 4) * 16), '=', '=']
  | [] => []

def base64Encode (bytes : List Nat) : String := String.mk (b64EncodeBytes bytes)

/-- One constructor per distinct `throw` in the source.
`typeError` models a JavaScript `TypeError` (property access on `null` /
`undefined`); `unparseableHost` is `"Unable to extract accountName with
provided information."` (the `catch` in `getAccountNameFromUrl` maps every
inner failure to it).  The SAS branch has its own `"Invalid AccountName in
the provided SAS Connection String"` message, kept distinct as
`invalidAccountNameSAS`. -/
inductive JsError where
  | typeError
  | unparseableHost
  | invalidProtocol
  | invalidEndpointSuffix
  | invalidAccountName
  | invalidAccountKey
  | invalidBlobEndpoint
  | invalidSAS
  | invalidAccountNameSAS
  deriving DecidableEq, Repr

/-- The result record of `extractConnectionStringParts`: the source returns
an object whose `kind` field is `"AccountConnString"` or `"SASConnString"`;
we model the two shapes as a sum.  `accountKey` is the decoded byte list
(the source stores a `Buffer`). -/
inductive ConnectionStringParts where
  | accountConnString (url accountName : String) (accountKey : List Nat) (proxyUri : String)
  | sasConnString (url accountName accountSas : String)
  deriving DecidableEq, Repr

instance {ε α : Type} [DecidableEq ε] [DecidableEq α] : DecidableEq (Except ε α) := fun a b =>
  match a, b with
  | .error x, .error y =>
    if h : x = y then isTrue (h ▸ rfl) else isFalse (fun c => h (by cases c; rfl))
  | .error _, .ok _ => isFalse (fun c => Except.noConfusion c)
  | .ok _, .error _ => isFalse (fun c => Except.noConfusion c)
  | .ok x, .ok y =>
    if h : x = y then isTrue (h ▸ rfl) else isFalse (fun c => h (by cases c; rfl))

/-- Host and path components of a URL. -/
structure ParsedUrl where
  host : Option String
  path : Option String
  deriving DecidableEq, Repr

/-- Modelled from the spec: the source calls `URLBuilder.parse` from the
storage SDK, which is not part of this repository.  Per the spec, the parser
splits `scheme://host:port/path?query` into components; `getHost()` is the
host without the port and `getPath()` the `/`-led path, each `undefined`
(here `none`) when absent.  An empty input has neither host nor path. -/
def parseUrl (url : String) : ParsedUrl :=
  let rest : List Char :=
    match splitFirst "://".data url.data with
    | some (_, r) => r
    | none => url.data
  match rest with
  | [] => ⟨none, none⟩
  | c :: cs =>
    if c == '/' then
      ⟨none, some (String.mk ((c :: cs).takeWhile (fun x => x != '?')))⟩
    else
      let hostChars := (c :: cs).takeWhile (fun x => x != ':' && x != '/' && x != '?')
      let after := (c :: cs).drop hostChars.length
      let after2 :=
        match after with
        | ':' :: t => t.dropWhile (fun x => x != '/' && x != '?')
        | _ => after
      let path :=
        match after2 with
        | '/' :: _ => some (String.mk (after2.takeWhile (fun x => x != '?')))
        | _ => none
      ⟨some (String.mk hostChars), path⟩

/-- The dot-separated labels of a host string. -/
def hostLabels (host : String) : List (List Char) := splitOnChar '.' host.data

/-- `getAccountNameFromUrl` from `utils.js`.  The source wraps its body in
`try/catch` and rethrows every inner failure (including the explicit
`"Provided accountName is invalid."`) as the single classified error modelled
by `JsError.unparseableHost`; the model applies that collapse directly. -/
def getAccountNameFromUrl (url : String) : Except JsError String :=
  match parseUrl url with
  | ⟨none, _⟩ => .error .unparseableHost
  | ⟨some host, pathOpt⟩ =>
    if (hostLabels host).getD 1 [] = "blob".data then
      if (hostLabels host).headD [] = [] then .error .unparseableHost
      else .ok (String.mk ((hostLabels host).headD []))
    else
      match pathOpt with
      | none => .error .unparseableHost
      | some p =>
        if (splitOnChar '/' p.data).getD 1 [] = [] then .error .unparseableHost
        else .ok (String.mk ((splitOnChar '/' p.data).getD 1 []))

/-- The literal key scanned for by `getProxyUriFromDevConnString`. -/
def devProxyKey : List Char := "DevelopmentStorageProxyUri=".data

/-- The scan loop of `getProxyUriFromDevConnString`: every matching segment
overwrites `proxyUri`, so the last occurrence wins. -/
def proxyScan : List (List Char) → String → Except JsError String
  | [], acc => .ok acc
  | e :: rest, acc =>
    if isPrefixL devProxyKey (trimList e) then
      match jsMatchCapture (trimList e) devProxyKey with
      | none => .error .typeError
      | some v => proxyScan rest (String.mk v)
    else proxyScan rest acc

/-- `getProxyUriFromDevConnString` from `utils.js`. -/
def getProxyUriFromDevConnString (connectionString : String) : Except JsError String :=
  if containsSubstr connectionString "DevelopmentStorageProxyUri=" then
    proxyScan (splitOnChar ';' connectionString.data) ""
  else .ok ""

/-- The scan loop of `getValueInConnString`: the first segment whose trimmed
text starts with `arg` is taken; `element.trim().match(arg + "=(.*)")[1]`
throws a `TypeError` when the match is `null`. -/
def valueScan (arg : List Char) : List (List Char) → Except JsError String
  | [] => .ok ""
  | e :: rest =>
    if isPrefixL arg (trimList e) then
      match jsMatchCapture (trimList e) (arg ++ ['=']) with
      | none => .error .typeError
      | some v => .ok (String.mk v)
    else valueScan arg rest

/-- `getValueInConnString` from `utils.js`. -/
def getValueInConnString (connectionString arg : String) : Except JsError String :=
  valueScan arg.data (splitOnChar ';' connectionString.data)

/-- Modelled from the spec: the source substitutes the SDK constant
`DevelopmentConnectionString` (not part of this repository) for development
connection strings; the spec calls it "a fixed, well-known emulator
connection string" whose account name and key "are constants of the
system". -/
def DevelopmentConnectionString : String :=
  "DefaultEndpointsProtocol=http;AccountName=devstoreaccount1;AccountKey=Eby8vdM02xNOcqFlqUwJPLlmEtlCDXJ1OUzFT50uSRZ6IFsuFq2UVErCz4I6tq/K1SZFPTOtr/KBHBeksoGMGw==;BlobEndpoint=http://127.0.0.1:10000/devstoreaccount1;QueueEndpoint=http://127.0.0.1:10001/devstoreaccount1;TableEndpoint=http://127.0.0.1:10002/devstoreaccount1;"

/-- The well-known emulator account name (part of the modelled constant). -/
def devStoreAccountName : String := "devstoreaccount1"

/-- The well-known emulator account key, base64 (part of the modelled
constant). -/
def devStoreAccountKey : String :=
  "Eby8vdM02xNOcqFlqUwJPLlmEtlCDXJ1OUzFT50uSRZ6IFsuFq2UVErCz4I6tq/K1SZFPTOtr/KBHBeksoGMGw=="

/-- The endpoint synthesis of the Account-Key branch (`utils.js`, the
`if (!blobEndpoint) { ... }` block). -/
def synthEndpoint (cs accountName : String) : Except JsError String :=
  match getValueInConnString cs "DefaultEndpointsProtocol" with
  | .error e => .error e
  | .ok dep =>
    if jsToLower dep ≠ "https" ∧ jsToLower dep ≠ "http" then .error .invalidProtocol
    else
      match getValueInConnString cs "EndpointSuffix" with
      | .error e => .error e
      | .ok suff =>
        if suff = "" then .error .invalidEndpointSuffix
        else .ok (dep ++ "://" ++ accountName ++ ".blob." ++ suff)

/-- The Account-Key branch of `extractConnectionStringParts`. -/
def accountBranch (cs be proxyUri : String) : Except JsError ConnectionStringParts :=
  match getValueInConnString cs "AccountName" with
  | .error e => .error e
  | .ok accountName =>
    match getValueInConnString cs "AccountKey" with
    | .error e => .error e
    | .ok keyStr =>
      match (if be = "" then synthEndpoint cs accountName else .ok be) with
      | .error e => .error e
      | .ok blobEndpoint =>
        if accountName = "" then .error .invalidAccountName
        else if (base64Decode keyStr).length = 0 then .error .invalidAccountKey
        else .ok (.accountConnString blobEndpoint accountName (base64Decode keyStr) proxyUri)

/-- The SAS branch of `extractConnectionStringParts`.  Note the source calls
`getAccountNameFromUrl(blobEndpoint)` before testing `!blobEndpoint`. -/
def sasBranch (cs be : String) : Except JsError ConnectionStringParts :=
  match getValueInConnString cs "SharedAccessSignature" with
  | .error e => .error e
  | .ok accountSas =>
    match getAccountNameFromUrl be with
    | .error e => .error e
    | .ok accountName =>
      if be = "" then .error .invalidBlobEndpoint
      else if accountSas = "" then .error .invalidSAS
      else if accountName = "" then .error .invalidAccountNameSAS
      else .ok (.sasConnString be accountName accountSas)

/-- `extractConnectionStringParts` after the development-storage
substitution: extract `BlobEndpoint`, strip one trailing `/`, then branch on
the presence of both `DefaultEndpointsProtocol=` and `AccountKey=` anywhere
in the (effective) connection string. -/
def parseWithProxy (cs proxyUri : String) : Except JsError ConnectionStringParts :=
  match getValueInConnString cs "BlobEndpoint" with
  | .error e => .error e
  | .ok be0 =>
    if containsSubstr cs "DefaultEndpointsProtocol=" && containsSubstr cs "AccountKey=" then
      accountBranch cs (if jsEndsWith be0 "/" then String.mk be0.data.dropLast else be0) proxyUri
    else sasBranch cs (if jsEndsWith be0 "/" then String.mk be0.data.dropLast else be0)

/-- `extractConnectionStringParts` from `utils.js`. -/
def extractConnectionStringParts (input : String) : Except JsError ConnectionStringParts :=
  if jsStartsWith input "UseDevelopmentStorage=true" then
    match getProxyUriFromDevConnString input with
    | .error e => .error e
    | .ok p => parseWithProxy DevelopmentConnectionString p
  else parseWithProxy input ""

/-- The canonical signing request handed to the external signer
(`generateBlobSASQueryParameters` with a `StorageSharedKeyCredential`). -/
structure SignRequest where
  containerName : String
  permissions : String
  accountName : String
  accountKeyB64 : String
  expiresOn : Nat
  deriving DecidableEq, Repr

/-- The value returned by `generateSasToken`. -/
structure SasTokenResult where
  sasKey : String
  url : String
  deriving DecidableEq, Repr

/-- `generateSasToken` from `credentials/index.js`.  The external signer and
the wall clock (milliseconds) are parameters.  The source destructures
`{ accountKey, accountName, url }` from the parse result; on the SAS variant
`accountKey` is `undefined` and `accountKey.toString('base64')` throws a
`TypeError` — there is no explicit credential-kind guard. -/
def generateSasToken (signer : SignRequest → String) (now : Nat)
    (connectionString container permissions : String) : Except JsError SasTokenResult :=
  match extractConnectionStringParts connectionString with
  | .error e => .error e
  | .ok (.sasConnString _ _ _) => .error .typeError
  | .ok (.accountConnString url accountName accountKey _) =>
    .ok { sasKey := signer
            { containerName := container
              permissions := permissions
              accountName := accountName
              accountKeyB64 := base64Encode accountKey
              expiresOn := now + 2 * 60 * 60 * 1000 }
          url := url }

/-- Outcomes only the Account-Key branch of the parser can produce: its
success shape and the four classified errors thrown in that branch. -/
def isAccountOutcome (r : Except JsError ConnectionStringParts) : Bool :=
  match r with
  | .ok (.accountConnString _ _ _ _) => true
  | .error .invalidProtocol => true
  | .error .invalidEndpointSuffix => true
  | .error .invalidAccountName => true
  | .error .invalidAccountKey => true
  | _ => false

/-- Outcomes only the SAS branch of the parser can produce: its success
shape and the classified errors thrown in that branch. -/
def isSasOutcome (r : Except JsError ConnectionStringParts) : Bool :=
  match r with
  | .ok (.sasConnString _ _ _) => true
  | .error .unparseableHost => true
  | .error .invalidBlobEndpoint => true
  | .error .invalidSAS => true
  | .error .invalidAccountNameSAS => true
  | _ => false

theorem valueScan_error (arg : List Char) (l : List (List Char)) (e : JsError)
    (h : valueScan arg l = .error e) : e = .typeError := by
  induction l with
  | nil => exact Except.noConfusion h
  | cons x xs ih =>
    simp only [valueScan] at h
    split at h
    · split at h
      · injection h with h'; exact h'.symm
      · exact Except.noConfusion h
    · exact ih h

theorem getValueInConnString_error (cs arg : String) (e : JsError)
    (h : getValueInConnString cs arg = .error e) : e = .typeError :=
  valueScan_error arg.data _ e h

theorem proxyScan_error (l : List (List Char)) (acc : String) (e : JsError)
    (h : proxyScan l acc = .error e) : e = .typeError := by
  induction l generalizing acc with
  | nil => exact Except.noConfusion h
  | cons x xs ih =>
    simp only [proxyScan] at h
    split at h
    · split at h
      · injection h with h'; exact h'.symm
      · exact ih _ h
    · exact ih _ h

theorem getProxyUriFromDevConnString_error (cs : String) (e : JsError)
    (h : getProxyUriFromDevConnString cs = .error e) : e = .typeError := by
  rw [getProxyUriFromDevConnString] at h
  split at h
  · exact proxyScan_error _ _ e h
  · exact Except.noConfusion h

theorem getAccountNameFromUrl_error (url : String) (e : JsError)
    (h : getAccountNameFromUrl url = .error e) : e = .unparseableHost := by
  rw [getAccountNameFromUrl] at h
  split at h
  · injection h with h'; exact h'.symm
  · split at h
    · split at h
      · injection h with h'; exact h'.symm
      · exact Except.noConfusion h
    · split at h
      · injection h with h'; exact h'.symm
      · split at h
        · injection h with h'; exact h'.symm
        · exact Except.noConfusion h

theorem getAccountNameFromUrl_ok_ne (url a : String)
    (h : getAccountNameFromUrl url = .ok a) : a ≠ "" := by
  rw [getAccountNameFromUrl] at h
  split at h
  · exact Except.noConfusion h
  · split at h
    · split at h
      · exact Except.noConfusion h
      · injection h with h'
        intro hc
        rename_i hne
        subst hc
        exact hne (congrArg String.data h')
    · split at h
      · exact Except.noConfusion h
      · split at h
        · exact Except.noConfusion h
        · injection h with h'
          intro hc
          rename_i hne
          subst hc
          exact hne (congrArg String.data h')

theorem synthEndpoint_error (cs an : String) (e : JsError)
    (h : synthEndpoint cs an = .error e) :
    e = .typeError ∨ e = .invalidProtocol ∨ e = .invalidEndpointSuffix := by
  rw [synthEndpoint] at h
  split at h
  next e1 h1 =>
    injection h with h'
    exact Or.inl (h'.symm.trans (getValueInConnString_error _ _ _ h1))
  next dep h1 =>
    split at h
    · injection h with h'; exact Or.inr (Or.inl h'.symm)
    · split at h
      next e2 h2 =>
        injection h with h'
        exact Or.inl (h'.symm.trans (getValueInConnString_error _ _ _ h2))
      next suff h2 =>
        split at h
        · injection h with h'; exact Or.inr (Or.inr h'.symm)
        · exact Except.noConfusion h

theorem accountBranch_ok (cs be p : String) (r : ConnectionStringParts)
    (h : accountBranch cs be p = .ok r) :
    ∃ u n k, r = .accountConnString u n k p ∧ n ≠ "" ∧ k ≠ [] := by
  rw [accountBranch] at h
  split at h
  · exact Except.noConfusion h
  next an h1 =>
    split at h
    · exact Except.noConfusion h
    next key h2 =>
      split at h
      · exact Except.noConfusion h
      next ep h3 =>
        split at h
        next => exact Except.noConfusion h
        next han =>
          split at h
          next => exact Except.noConfusion h
          next hk =>
            injection h with h'
            exact ⟨ep, an, base64Decode key, h'.symm, han,
              fun hke => hk (by rw [hke]; rfl)⟩

theorem sasBranch_ok (cs be : String) (r : ConnectionStringParts)
    (h : sasBranch cs be = .ok r) :
    ∃ n sas, r = .sasConnString be n sas ∧ n ≠ "" ∧ sas ≠ "" := by
  rw [sasBranch] at h
  split at h
  · exact Except.noConfusion h
  next sas h1 =>
    split at h
    · exact Except.noConfusion h
    next an h2 =>
      split at h
      next => exact Except.noConfusion h
      next hbe =>
        split at h
        next => exact Except.noConfusion h
        next hs =>
          split at h
          next => exact Except.noConfusion h
          next ha =>
            injection h with h'
            exact ⟨an, sas, h'.symm, ha, hs⟩

theorem sasBranch_not_account (cs be : String) :
    isAccountOutcome (sasBranch cs be) = false := by
  rw [sasBranch]
  split
  next e h1 =>
    have he := getValueInConnString_error _ _ _ h1
    subst he
    rfl
  next sas h1 =>
    split
    next e h2 =>
      have he := getAccountNameFromUrl_error _ _ h2
      subst he
      rfl
    next an h2 =>
      split
      · rfl
      · split
        · rfl
        · split
          · rfl
          · rfl

theorem accountBranch_not_sas (cs be p : String) :
    isSasOutcome (accountBranch cs be p) = false := by
  rw [accountBranch]
  split
  next e h1 =>
    have he := getValueInConnString_error _ _ _ h1
    subst he
    rfl
  next an h1 =>
    split
    next e h2 =>
      have he := getValueInConnString_error _ _ _ h2
      subst he
      rfl
    next key h2 =>
      split
      next e h3 =>
        have he : e = .typeError ∨ e = .invalidProtocol ∨ e = .invalidEndpointSuffix := by
          by_cases hbe : be = ""
          · rw [if_pos hbe] at h3
            exact synthEndpoint_error _ _ _ h3
          · rw [if_neg hbe] at h3
            exact Except.noConfusion h3
        rcases he with he | he | he <;> subst he <;> rfl
      next ep h3 =>
        split
        · rfl
        · split
          · rfl
          · rfl

theorem sasBranch_empty_be (cs sas : String)
    (h1 : getValueInConnString cs "SharedAccessSignature" = .ok sas) :
    sasBranch cs "" = .error .unparseableHost := by
  rw [sasBranch, h1]
  rfl

theorem parseWithProxy_not_sas (cs p : String)
    (h1 : containsSubstr cs "DefaultEndpointsProtocol=" = true)
    (h2 : containsSubstr cs "AccountKey=" = true) :
    isSasOutcome (parseWithProxy cs p) = false := by
  rw [parseWithProxy]
  split
  next e hbe =>
    have he := getValueInConnString_error _ _ _ hbe
    subst he
    rfl
  next be0 hbe =>
    have hc : (containsSubstr cs "DefaultEndpointsProtocol=" && containsSubstr cs "AccountKey=") = true := by
      rw [h1, h2]
      rfl
    rw [hc, if_pos rfl]
    exact accountBranch_not_sas _ _ _

theorem parseWithProxy_not_account (cs p : String)
    (hcond : (containsSubstr cs "DefaultEndpointsProtocol=" && containsSubstr cs "AccountKey=") = false) :
    isAccountOutcome (parseWithProxy cs p) = false := by
  rw [parseWithProxy]
  split
  next e hbe =>
    have he := getValueInConnString_error _ _ _ hbe
    subst he
    rfl
  next be0 hbe =>
    rw [hcond, if_neg Bool.false_ne_true]
    exact sasBranch_not_account _ _

theorem parseWithProxy_ok_shape (cs p : String) (r : ConnectionStringParts)
    (h1 : containsSubstr cs "DefaultEndpointsProtocol=" = true)
    (h2 : containsSubstr cs "AccountKey=" = true)
    (h : parseWithProxy cs p = .ok r) :
    ∃ u n k, r = .accountConnString u n k p := by
  rw [parseWithProxy] at h
  split at h
  · exact Except.noConfusion h
  next be0 hbe =>
    have hc : (containsSubstr cs "DefaultEndpointsProtocol=" && containsSubstr cs "AccountKey=") = true := by
      rw [h1, h2]
      rfl
    rw [hc, if_pos rfl] at h
    obtain ⟨u, n, k, hr, _, _⟩ := accountBranch_ok _ _ _ _ h
    exact ⟨u, n, k, hr⟩

theorem parseWithProxy_ok_inv (cs p : String) (r : ConnectionStringParts)
    (h : parseWithProxy cs p = .ok r) :
    (∀ u n k q, r = .accountConnString u n k q → n ≠ "" ∧ k ≠ []) ∧
    (∀ u n sas, r = .sasConnString u n sas → n ≠ "" ∧ sas ≠ "") := by
  rw [parseWithProxy] at h
  split at h
  · exact Except.noConfusion h
  next be0 hbe =>
    split at h
    · obtain ⟨u, n, k, hr, hn, hk⟩ := accountBranch_ok _ _ _ _ h
      subst hr
      constructor
      · intro u' n' k' q' hEq
        injection hEq with e1 e2 e3 e4
        subst e2
        subst e3
        exact ⟨hn, hk⟩
      · intro u' n' sas hEq
        exact ConnectionStringParts.noConfusion hEq
    · obtain ⟨n, sas, hr, hn, hs⟩ := sasBranch_ok _ _ _ h
      subst hr
      constructor
      · intro u' n' k' q' hEq
        exact ConnectionStringParts.noConfusion hEq
      · intro u' n' sas' hEq
        injection hEq with e1 e2 e3
        subst e2
        subst e3
        exact ⟨hn, hs⟩

/-- C1 (amended): a connection string (not using the development-storage
shorthand) that contains `DefaultEndpointsProtocol=` but not `AccountKey=`
is routed to the SAS-parsing branch: parsing never produces the Account-Key
credential variant and never fails with any Account-Key-branch error — in
particular never with `InvalidAccountKey`. -/
theorem claim_C1 (s : String)
    (hdev : jsStartsWith s "UseDevelopmentStorage=true" = false)
    (h1 : containsSubstr s "DefaultEndpointsProtocol=" = true)
    (h2 : containsSubstr s "AccountKey=" = false) :
    isAccountOutcome (extractConnectionStringParts s) = false := by
  rw [extractConnectionStringParts, hdev, if_neg Bool.false_ne_true]
  exact parseWithProxy_not_account s "" (by rw [h1, h2]; rfl)

theorem claim_C1_witness :
    jsStartsWith "DefaultEndpointsProtocol=https;AccountName=acct;EndpointSuffix=core.windows.net" "UseDevelopmentStorage=true" = false ∧
    containsSubstr "DefaultEndpointsProtocol=https;AccountName=acct;EndpointSuffix=core.windows.net" "DefaultEndpointsProtocol=" = true ∧
    containsSubstr "DefaultEndpointsProtocol=https;AccountName=acct;EndpointSuffix=core.windows.net" "AccountKey=" = false ∧
    isAccountOutcome (extractConnectionStringParts "DefaultEndpointsProtocol=https;AccountName=acct;EndpointSuffix=core.windows.net") = false :=
  ⟨by decide, by decide, by decide,
    claim_C1 "DefaultEndpointsProtocol=https;AccountName=acct;EndpointSuffix=core.windows.net"
      (by decide) (by decide) (by decide)⟩

/-- C1 counterexample: the string contains `DefaultEndpointsProtocol=` and
not `AccountKey=`, yet parsing does not fail with `InvalidAccountKey` — it
falls through to the SAS branch and fails with `UnparseableHost`. -/
theorem claim_C1_counterexample :
    containsSubstr "DefaultEndpointsProtocol=https;AccountName=acct;EndpointSuffix=core.windows.net" "DefaultEndpointsProtocol=" = true ∧
    containsSubstr "DefaultEndpointsProtocol=https;AccountName=acct;EndpointSuffix=core.windows.net" "AccountKey=" = false ∧
    extractConnectionStringParts "DefaultEndpointsProtocol=https;AccountName=acct;EndpointSuffix=core.windows.net" = .error .unparseableHost ∧
    extractConnectionStringParts "DefaultEndpointsProtocol=https;AccountName=acct;EndpointSuffix=core.windows.net" ≠ .error .invalidAccountKey :=
  ⟨by decide, by decide, by decide, by decide⟩

/-- C2 (amended): issuing from a SAS-variant credential always fails, but
with the unclassified `TypeError` of reading `accountKey` off a credential
that lacks it — there is no explicit guard and no classified
`UnsupportedCredentialKind` error in the code. -/
theorem claim_C2 (signer : SignRequest → String) (now : Nat)
    (connectionString container permissions url accountName accountSas : String)
    (h : extractConnectionStringParts connectionString = .ok (.sasConnString url accountName accountSas)) :
    generateSasToken signer now connectionString container permissions = .error .typeError := by
  rw [generateSasToken, h]

theorem claim_C2_witness :
    extractConnectionStringParts "BlobEndpoint=http://foo.blob.core.example.com;SharedAccessSignature=sv=abc" = .ok (.sasConnString "http://foo.blob.core.example.com" "foo" "sv=abc") ∧
    generateSasToken (fun _ => "sig") 0 "BlobEndpoint=http://foo.blob.core.example.com;SharedAccessSignature=sv=abc" "images" "c" = .error .typeError :=
  ⟨by decide,
    claim_C2 (fun _ => "sig") 0 "BlobEndpoint=http://foo.blob.core.example.com;SharedAccessSignature=sv=abc"
      "images" "c" "http://foo.blob.core.example.com" "foo" "sv=abc" (by decide)⟩

/-- C2 counterexample: a SAS-only credential parses fine, and issuing from
it fails with the unclassified `TypeError`, not a classified
`UnsupportedCredentialKind` (no such error exists in the code). -/
theorem claim_C2_counterexample :
    extractConnectionStringParts "BlobEndpoint=http://acc.blob.core.windows.net;SharedAccessSignature=sv=2020" = .ok (.sasConnString "http://acc.blob.core.windows.net" "acc" "sv=2020") ∧
    generateSasToken (fun _ => "") 0 "BlobEndpoint=http://acc.blob.core.windows.net;SharedAccessSignature=sv=2020" "images" "c" = .error .typeError :=
  ⟨by decide, by decide⟩

/-- C3 (amended): whenever parsing succeeds, the account name is non-empty
and the credential's secret (decoded account key, resp. shared access
signature) is non-empty; the base URL, however, may still end in a path
separator. -/
theorem claim_C3 (s : String) (r : ConnectionStringParts)
    (h : extractConnectionStringParts s = .ok r) :
    (∀ u n k q, r = .accountConnString u n k q → n ≠ "" ∧ k ≠ []) ∧
    (∀ u n sas, r = .sasConnString u n sas → n ≠ "" ∧ sas ≠ "") := by
  rw [extractConnectionStringParts] at h
  split at h
  · split at h
    · exact Except.noConfusion h
    · exact parseWithProxy_ok_inv _ _ _ h
  · exact parseWithProxy_ok_inv _ _ _ h

theorem claim_C3_witness :
    extractConnectionStringParts "BlobEndpoint=http://foo.blob.core.example.com;SharedAccessSignature=sv=abc" = .ok (.sasConnString "http://foo.blob.core.example.com" "foo" "sv=abc") ∧
    ("foo" ≠ "" ∧ "sv=abc" ≠ "") :=
  ⟨by decide,
    (claim_C3 "BlobEndpoint=http://foo.blob.core.example.com;SharedAccessSignature=sv=abc"
        (.sasConnString "http://foo.blob.core.example.com" "foo" "sv=abc") (by decide)).2
      "http://foo.blob.core.example.com" "foo" "sv=abc" rfl⟩

/-- C3 counterexample: a successful parse whose `baseUrl` ends with the
path separator `/` (the synthesized endpoint inherits a trailing slash from
`EndpointSuffix`). -/
theorem claim_C3_counterexample :
    extractConnectionStringParts "DefaultEndpointsProtocol=https;AccountName=acct;AccountKey=YWJj;EndpointSuffix=core.windows.net/" = .ok (.accountConnString "https://acct.blob.core.windows.net/" "acct" [97, 98, 99] "") ∧
    jsEndsWith "https://acct.blob.core.windows.net/" "/" = true :=
  ⟨by decide, by decide⟩

/-- C4 (amended): a connection string routed to the SAS branch whose
`BlobEndpoint` is absent fails with `UnparseableHost`, because the source
derives the account name from the (empty) endpoint before it tests
`!blobEndpoint`; the `InvalidBlobEndpoint` check is unreachable. -/
theorem claim_C4 (s sas : String)
    (hdev : jsStartsWith s "UseDevelopmentStorage=true" = false)
    (hcond : (containsSubstr s "DefaultEndpointsProtocol=" && containsSubstr s "AccountKey=") = false)
    (hbe : getValueInConnString s "BlobEndpoint" = .ok "")
    (hsas : getValueInConnString s "SharedAccessSignature" = .ok sas) :
    extractConnectionStringParts s = .error .unparseableHost := by
  rw [extractConnectionStringParts, hdev, if_neg Bool.false_ne_true]
  have step : parseWithProxy s "" = sasBranch s "" := by
    rw [parseWithProxy, hbe, hcond]
    rfl
  rw [step]
  exact sasBranch_empty_be s sas hsas

theorem claim_C4_witness :
    jsStartsWith "SharedAccessSignature=sv=x" "UseDevelopmentStorage=true" = false ∧
    (containsSubstr "SharedAccessSignature=sv=x" "DefaultEndpointsProtocol=" && containsSubstr "SharedAccessSignature=sv=x" "AccountKey=") = false ∧
    getValueInConnString "SharedAccessSignature=sv=x" "BlobEndpoint" = .ok "" ∧
    extractConnectionStringParts "SharedAccessSignature=sv=x" = .error .unparseableHost :=
  ⟨by decide, by decide, by decide,
    claim_C4 "SharedAccessSignature=sv=x" "sv=x" (by decide) (by decide) (by decide) (by decide)⟩

/-- C4 counterexample: a SAS-routed string without `BlobEndpoint` fails
with `UnparseableHost`, not `InvalidBlobEndpoint` as the claim states. -/
theorem claim_C4_counterexample :
    extractConnectionStringParts "SharedAccessSignature=sv=y" = .error .unparseableHost ∧
    extractConnectionStringParts "SharedAccessSignature=sv=y" ≠ .error .invalidBlobEndpoint :=
  ⟨by decide, by decide⟩

/-- C5: a connection string containing both `DefaultEndpointsProtocol=` and
`AccountKey=` that parses successfully always yields the Account-Key
credential variant (also when a `SharedAccessSignature` field is present). -/
theorem claim_C5 (s : String) (r : ConnectionStringParts)
    (h1 : containsSubstr s "DefaultEndpointsProtocol=" = true)
    (h2 : containsSubstr s "AccountKey=" = true)
    (h : extractConnectionStringParts s = .ok r) :
    ∃ u n k p, r = .accountConnString u n k p := by
  rw [extractConnectionStringParts] at h
  split at h
  · split at h
    · exact Except.noConfusion h
    next p hp =>
      obtain ⟨u, n, k, hr⟩ :=
        parseWithProxy_ok_shape DevelopmentConnectionString p r (by decide) (by decide) h
      exact ⟨u, n, k, p, hr⟩
  · obtain ⟨u, n, k, hr⟩ := parseWithProxy_ok_shape s "" r h1 h2 h
    exact ⟨u, n, k, "", hr⟩

theorem claim_C5_witness :
    containsSubstr "DefaultEndpointsProtocol=https;AccountName=acct;AccountKey=YWJj;EndpointSuffix=core.windows.net;SharedAccessSignature=sv=zzz" "DefaultEndpointsProtocol=" = true ∧
    containsSubstr "DefaultEndpointsProtocol=https;AccountName=acct;AccountKey=YWJj;EndpointSuffix=core.windows.net;SharedAccessSignature=sv=zzz" "AccountKey=" = true ∧
    containsSubstr "DefaultEndpointsProtocol=https;AccountName=acct;AccountKey=YWJj;EndpointSuffix=core.windows.net;SharedAccessSignature=sv=zzz" "SharedAccessSignature=" = true ∧
    ∃ u n k p, (ConnectionStringParts.accountConnString "https://acct.blob.core.windows.net" "acct" [97, 98, 99] "") = .accountConnString u n k p :=
  ⟨by decide, by decide, by decide,
    claim_C5 "DefaultEndpointsProtocol=https;AccountName=acct;AccountKey=YWJj;EndpointSuffix=core.windows.net;SharedAccessSignature=sv=zzz"
      (.accountConnString "https://acct.blob.core.windows.net" "acct" [97, 98, 99] "")
      (by decide) (by decide) (by decide)⟩

/-- C7: whenever `getAccountNameFromUrl` succeeds, the account name is the
host's first dot-separated label when the second label is `blob`, and
otherwise the first path segment of the URL. -/
theorem claim_C7 (url a : String)
    (h : getAccountNameFromUrl url = .ok a) :
    ∃ host, (parseUrl url).host = some host ∧
      (((hostLabels host).getD 1 [] = "blob".data ∧ a.data = (hostLabels host).headD []) ∨
       ((hostLabels host).getD 1 [] ≠ "blob".data ∧
         ∃ p, (parseUrl url).path = some p ∧ a.data = (splitOnChar '/' p.data).getD 1 [])) := by
  rw [getAccountNameFromUrl] at h
  split at h
  · exact Except.noConfusion h
  next u host pathOpt heq =>
    refine ⟨host, by rw [heq], ?_⟩
    split at h
    next hb =>
      split at h
      · exact Except.noConfusion h
      · injection h with h'
        exact Or.inl ⟨hb, (congrArg String.data h').symm⟩
    next hb =>
      split at h
      · exact Except.noConfusion h
      next p =>
        split at h
        · exact Except.noConfusion h
        · injection h with h'
          exact Or.inr ⟨hb, p, by rw [heq], (congrArg String.data h').symm⟩

theorem claim_C7_witness :
    getAccountNameFromUrl "http://foo.blob.core.example.com" = .ok "foo" ∧
    getAccountNameFromUrl "http://localhost:10001/devstoreaccount1/" = .ok "devstoreaccount1" ∧
    ∃ host, (parseUrl "http://foo.blob.core.example.com").host = some host ∧
      (((hostLabels host).getD 1 [] = "blob".data ∧ ("foo" : String).data = (hostLabels host).headD []) ∨
       ((hostLabels host).getD 1 [] ≠ "blob".data ∧
         ∃ p, (parseUrl "http://foo.blob.core.example.com").path = some p ∧
           ("foo" : String).data = (splitOnChar '/' p.data).getD 1 [])) :=
  ⟨by decide, by decide, claim_C7 "http://foo.blob.core.example.com" "foo" (by decide)⟩

/-- C8: the development-storage shorthand with a proxy URI parses to the
well-known emulator account name and key with the proxy URI captured. -/
theorem claim_C8 :
    extractConnectionStringParts "UseDevelopmentStorage=true;DevelopmentStorageProxyUri=http://x" =
      .ok (.accountConnString "http://127.0.0.1:10000/devstoreaccount1" devStoreAccountName
        (base64Decode devStoreAccountKey) "http://x") := by
  decide

/-- C10: the Account-Key/SAS routing is a substring search over the whole
raw string — any input containing both literals anywhere (also inside
another field's value) is handled by the Account-Key path and can never
produce a SAS-branch outcome. -/
theorem claim_C10 (s : String)
    (h1 : containsSubstr s "DefaultEndpointsProtocol=" = true)
    (h2 : containsSubstr s "AccountKey=" = true) :
    isSasOutcome (extractConnectionStringParts s) = false := by
  rw [extractConnectionStringParts]
  split
  · split
    next e hp =>
      have he := getProxyUriFromDevConnString_error _ _ hp
      subst he
      rfl
    next p hp => exact parseWithProxy_not_sas DevelopmentConnectionString p (by decide) (by decide)
  · exact parseWithProxy_not_sas s "" h1 h2

theorem claim_C10_witness :
    containsSubstr "DefaultEndpointsProtocol=https;SharedAccessSignature=se=AccountKey=haha;BlobEndpoint=http://foo.blob.core.windows.net" "DefaultEndpointsProtocol=" = true ∧
    containsSubstr "DefaultEndpointsProtocol=https;SharedAccessSignature=se=AccountKey=haha;BlobEndpoint=http://foo.blob.core.windows.net" "AccountKey=" = true ∧
    isSasOutcome (extractConnectionStringParts "DefaultEndpointsProtocol=https;SharedAccessSignature=se=AccountKey=haha;BlobEndpoint=http://foo.blob.core.windows.net") = false :=
  ⟨by decide, by decide,
    claim_C10 "DefaultEndpointsProtocol=https;SharedAccessSignature=se=AccountKey=haha;BlobEndpoint=http://foo.blob.core.windows.net"
      (by decide) (by decide)⟩

theorem isPrefixL_append_self (xs ys : List Char) : isPrefixL xs (xs ++ ys) = true := by
  induction xs with
  | nil => rfl
  | cons c cs ih => simp [isPrefixL, ih]

theorem splitFirst_of_prefixL (pat s : List Char) (h : isPrefixL pat s = true) :
    splitFirst pat s = some ([], s.drop pat.length) := by
  cases s with
  | nil => simp only [splitFirst, if_pos h, List.drop_nil]
  | cons c cs => simp only [splitFirst, if_pos h]

theorem splitFirst_prefix_isSome (pat pre post : List Char) :
    (splitFirst pat (pre ++ (pat ++ post))).isSome = true := by
  induction pre with
  | nil =>
    rw [List.nil_append, splitFirst_of_prefixL pat _ (isPrefixL_append_self pat post)]
    rfl
  | cons c cs ih =>
    rw [List.cons_append]
    simp only [splitFirst]
    split
    · rfl
    · cases hsf : splitFirst pat (cs ++ (pat ++ post)) with
      | none => rw [hsf] at ih; simp at ih
      | some pr => simp [hsf]

theorem splitOnChar_append_sep (sep : Char) (e rest : List Char)
    (h : ∀ c ∈ e, c ≠ sep) :
    splitOnChar sep (e ++ sep :: rest) = e :: splitOnChar sep rest := by
  induction e with
  | nil =>
    rw [List.nil_append]
    simp only [splitOnChar, beq_self_eq_true, if_true]
  | cons c cs ih =>
    have hc : c ≠ sep := h c (List.mem_cons_self c cs)
    have hcs : ∀ x ∈ cs, x ≠ sep := fun x hx => h x (List.mem_cons_of_mem c hx)
    rw [List.cons_append]
    simp only [splitOnChar]
    rw [if_neg (by simp [hc]), ih hcs]

theorem splitOnChar_no_sep (sep : Char) (e : List Char)
    (h : ∀ c ∈ e, c ≠ sep) :
    splitOnChar sep e = [e] := by
  induction e with
  | nil => rfl
  | cons c cs ih =>
    have hc : c ≠ sep := h c (List.mem_cons_self c cs)
    have hcs : ∀ x ∈ cs, x ≠ sep := fun x hx => h x (List.mem_cons_of_mem c hx)
    simp only [splitOnChar]
    rw [if_neg (by simp [hc]), ih hcs]

theorem jsMatchCapture_at_start (pat a : List Char)
    (hnl : a.takeWhile (fun c => c != '\n') = a) :
    jsMatchCapture (pat ++ a) pat = some a := by
  rw [jsMatchCapture, splitFirst_of_prefixL pat _ (isPrefixL_append_self pat a), List.drop_left]
  show some (a.takeWhile (fun c => c != '\n')) = some a
  rw [hnl]

theorem valueScan_first_match (arg a : List Char) (ls : List (List Char))
    (htrim : trimList (arg ++ '=' :: a) = arg ++ '=' :: a)
    (hnl : a.takeWhile (fun c => c != '\n') = a) :
    valueScan arg ((arg ++ '=' :: a) :: ls) = .ok (String.mk a) := by
  simp only [valueScan, htrim]
  rw [if_pos (isPrefixL_append_self arg ('=' :: a))]
  have he : arg ++ '=' :: a = (arg ++ ['=']) ++ a := by simp
  rw [he, jsMatchCapture_at_start _ _ hnl]

theorem getValueInConnString_first (arg a rest : String)
    (hsemiArg : ∀ c ∈ arg.data, c ≠ ';')
    (hsemiA : ∀ c ∈ a.data, c ≠ ';')
    (htrim : trimList (arg.data ++ '=' :: a.data) = arg.data ++ '=' :: a.data)
    (hnl : a.data.takeWhile (fun c => c != '\n') = a.data) :
    getValueInConnString (arg ++ "=" ++ a ++ ";" ++ rest) arg = .ok a := by
  rw [getValueInConnString]
  have heqd : ("=" : String).data = ['='] := rfl
  have hsemid : (";" : String).data = [';'] := rfl
  have hdata : (arg ++ "=" ++ a ++ ";" ++ rest).data =
      (arg.data ++ '=' :: a.data) ++ ';' :: rest.data := by
    simp [String.data_append, heqd, hsemid, List.append_assoc]
  rw [hdata]
  have hseg : ∀ c ∈ arg.data ++ '=' :: a.data, c ≠ ';' := by
    intro c hc
    rcases List.mem_append.mp hc with h | h
    · exact hsemiArg c h
    · rcases List.mem_cons.mp h with h | h
      · subst h; decide
      · exact hsemiA c h
  rw [splitOnChar_append_sep ';' _ _ hseg]
  exact valueScan_first_match arg.data a.data _ htrim hnl

theorem proxyScan_skip (e : List Char) (ls : List (List Char)) (acc : String)
    (h : isPrefixL devProxyKey (trimList e) = false) :
    proxyScan (e :: ls) acc = proxyScan ls acc := by
  simp only [proxyScan]
  rw [h, if_neg Bool.false_ne_true]

theorem proxyScan_take (ls : List (List Char)) (acc : String) (v : List Char)
    (ht : trimList (devProxyKey ++ v) = devProxyKey ++ v)
    (hnl : v.takeWhile (fun c => c != '\n') = v) :
    proxyScan ((devProxyKey ++ v) :: ls) acc = proxyScan ls (String.mk v) := by
  simp only [proxyScan, ht]
  rw [if_pos (isPrefixL_append_self devProxyKey v), jsMatchCapture_at_start _ _ hnl]

theorem getProxyUriFromDevConnString_last (a b : String)
    (hsA : ∀ c ∈ a.data, c ≠ ';') (hsB : ∀ c ∈ b.data, c ≠ ';')
    (htA : trimList (devProxyKey ++ a.data) = devProxyKey ++ a.data)
    (htB : trimList (devProxyKey ++ b.data) = devProxyKey ++ b.data)
    (hnA : a.data.takeWhile (fun c => c != '\n') = a.data)
    (hnB : b.data.takeWhile (fun c => c != '\n') = b.data) :
    getProxyUriFromDevConnString
      ("UseDevelopmentStorage=true;DevelopmentStorageProxyUri=" ++ a ++ ";DevelopmentStorageProxyUri=" ++ b) = .ok b := by
  have l1 : ("UseDevelopmentStorage=true;DevelopmentStorageProxyUri=" : String).data =
      "UseDevelopmentStorage=true;".data ++ devProxyKey := by decide
  have l2 : (";DevelopmentStorageProxyUri=" : String).data = ';' :: devProxyKey := by decide
  have l3 : ("UseDevelopmentStorage=true;" : String).data =
      "UseDevelopmentStorage=true".data ++ [';'] := by decide
  have hdata : ("UseDevelopmentStorage=true;DevelopmentStorageProxyUri=" ++ a ++ ";DevelopmentStorageProxyUri=" ++ b).data =
      "UseDevelopmentStorage=true;".data ++ (devProxyKey ++ (a.data ++ ';' :: (devProxyKey ++ b.data))) := by
    simp [String.data_append, l1, l2, l3, devProxyKey, List.append_assoc]
  have hcontains : containsSubstr
      ("UseDevelopmentStorage=true;DevelopmentStorageProxyUri=" ++ a ++ ";DevelopmentStorageProxyUri=" ++ b)
      "DevelopmentStorageProxyUri=" = true := by
    rw [containsSubstr, hdata]
    exact splitFirst_prefix_isSome devProxyKey _ _
  rw [getProxyUriFromDevConnString, if_pos hcontains]
  have hdata2 : ("UseDevelopmentStorage=true;DevelopmentStorageProxyUri=" ++ a ++ ";DevelopmentStorageProxyUri=" ++ b).data =
      "UseDevelopmentStorage=true".data ++ ';' :: ((devProxyKey ++ a.data) ++ ';' :: (devProxyKey ++ b.data)) := by
    simp [String.data_append, l1, l2, l3, devProxyKey, List.append_assoc]
  rw [hdata2]
  have hkey : ∀ c ∈ devProxyKey, c ≠ ';' := by decide
  have h1 : ∀ c ∈ ("UseDevelopmentStorage=true" : String).data, c ≠ ';' := by decide
  have h2 : ∀ c ∈ devProxyKey ++ a.data, c ≠ ';' := by
    intro c hc
    rcases List.mem_append.mp hc with h | h
    · exact hkey c h
    · exact hsA c h
  have h3 : ∀ c ∈ devProxyKey ++ b.data, c ≠ ';' := by
    intro c hc
    rcases List.mem_append.mp hc with h | h
    · exact hkey c h
    · exact hsB c h
  rw [splitOnChar_append_sep ';' _ _ h1, splitOnChar_append_sep ';' _ _ h2,
    splitOnChar_no_sep ';' _ h3]
  have hskip : isPrefixL devProxyKey (trimList ("UseDevelopmentStorage=true" : String).data) = false := by
    decide
  rw [proxyScan_skip _ _ _ hskip, proxyScan_take _ _ _ htA hnA, proxyScan_take _ _ _ htB hnB]
  rfl

/-- C9 (amended): duplicate keys are resolved differently by the two
scanners — `getValueInConnString` (used for every `Key=Value` field) takes
the first occurrence in scan order, but the `DevelopmentStorageProxyUri`
scan of `getProxyUriFromDevConnString` keeps overwriting its accumulator,
so the last occurrence wins there. -/
theorem claim_C9 :
    (∀ (arg a rest : String),
      (∀ c ∈ arg.data, c ≠ ';') → (∀ c ∈ a.data, c ≠ ';') →
      trimList (arg.data ++ '=' :: a.data) = arg.data ++ '=' :: a.data →
      a.data.takeWhile (fun c => c != '\n') = a.data →
      getValueInConnString (arg ++ "=" ++ a ++ ";" ++ rest) arg = .ok a) ∧
    (∀ (a b : String),
      (∀ c ∈ a.data, c ≠ ';') → (∀ c ∈ b.data, c ≠ ';') →
      trimList (devProxyKey ++ a.data) = devProxyKey ++ a.data →
      trimList (devProxyKey ++ b.data) = devProxyKey ++ b.data →
      a.data.takeWhile (fun c => c != '\n') = a.data →
      b.data.takeWhile (fun c => c != '\n') = b.data →
      getProxyUriFromDevConnString
        ("UseDevelopmentStorage=true;DevelopmentStorageProxyUri=" ++ a ++ ";DevelopmentStorageProxyUri=" ++ b) = .ok b) :=
  ⟨fun arg a rest h1 h2 h3 h4 => getValueInConnString_first arg a rest h1 h2 h3 h4,
   fun a b h1 h2 h3 h4 h5 h6 => getProxyUriFromDevConnString_last a b h1 h2 h3 h4 h5 h6⟩

theorem claim_C9_witness :
    getValueInConnString "AccountName=first;AccountName=second" "AccountName" = .ok "first" ∧
    getProxyUriFromDevConnString "UseDevelopmentStorage=true;DevelopmentStorageProxyUri=http://a;DevelopmentStorageProxyUri=http://b" = .ok "http://b" :=
  ⟨claim_C9.1 "AccountName" "first" "AccountName=second"
      (by decide) (by decide) (by decide) (by decide),
   claim_C9.2 "http://a" "http://b"
      (by decide) (by decide) (by decide) (by decide) (by decide) (by decide)⟩

/-- C9 counterexample: with `DevelopmentStorageProxyUri` given twice, the
parsed credential carries the value of the second (last) occurrence, not
the first as the claim states. -/
theorem claim_C9_counterexample :
    extractConnectionStringParts "UseDevelopmentStorage=true;DevelopmentStorageProxyUri=http://a;DevelopmentStorageProxyUri=http://b" =
      .ok (.accountConnString "http://127.0.0.1:10000/devstoreaccount1" devStoreAccountName
        (base64Decode devStoreAccountKey) "http://b") ∧
    ("http://b" : String) ≠ "http://a" :=
  ⟨by decide, by decide⟩

/-- C6: a well-formed Account-Key connection string without `BlobEndpoint`
whose protocol is (case-insensitively) `http` or `https` and whose
`EndpointSuffix` is non-empty parses to the synthesized base URL
`{protocol}://{accountName}.blob.{endpointSuffix}`. -/
theorem claim_C6 (s dep an key suff : String)
    (hdev : jsStartsWith s "UseDevelopmentStorage=true" = false)
    (h1 : containsSubstr s "DefaultEndpointsProtocol=" = true)
    (h2 : containsSubstr s "AccountKey=" = true)
    (hbe : getValueInConnString s "BlobEndpoint" = .ok "")
    (hdep : getValueInConnString s "DefaultEndpointsProtocol" = .ok dep)
    (hprot : jsToLower dep = "https" ∨ jsToLower dep = "http")
    (hsuf : getValueInConnString s "EndpointSuffix" = .ok suff)
    (hsufne : suff ≠ "")
    (han : getValueInConnString s "AccountName" = .ok an)
    (hanne : an ≠ "")
    (hkey : getValueInConnString s "AccountKey" = .ok key)
    (hkeyne : base64Decode key ≠ []) :
    extractConnectionStringParts s =
      .ok (.accountConnString (dep ++ "://" ++ an ++ ".blob." ++ suff) an (base64Decode key) "") := by
  rw [extractConnectionStringParts, hdev, if_neg Bool.false_ne_true]
  have hc : (containsSubstr s "DefaultEndpointsProtocol=" && containsSubstr s "AccountKey=") = true := by
    rw [h1, h2]
    rfl
  have step1 : parseWithProxy s "" = accountBranch s "" "" := by
    rw [parseWithProxy, hbe, hc]
    rfl
  rw [step1]
  have hpneg : ¬(jsToLower dep ≠ "https" ∧ jsToLower dep ≠ "http") := by
    rcases hprot with hp | hp
    · intro hcontra; exact hcontra.1 hp
    · intro hcontra; exact hcontra.2 hp
  have hsynth : synthEndpoint s an = .ok (dep ++ "://" ++ an ++ ".blob." ++ suff) := by
    rw [synthEndpoint]
    simp only [hdep]
    rw [if_neg hpneg]
    simp only [hsuf]
    rw [if_neg hsufne]
  have hklen : ¬((base64Decode key).length = 0) := fun hl => hkeyne (List.length_eq_zero.mp hl)
  rw [accountBranch]
  simp only [han, hkey, if_true, hsynth]
  rw [if_neg hanne, if_neg hklen]

theorem claim_C6_witness :
    extractConnectionStringParts "DefaultEndpointsProtocol=https;AccountName=acct;AccountKey=YWJj;EndpointSuffix=core.windows.net" =
      .ok (.accountConnString "https://acct.blob.core.windows.net" "acct" (base64Decode "YWJj") "") :=
  claim_C6 "DefaultEndpointsProtocol=https;AccountName=acct;AccountKey=YWJj;EndpointSuffix=core.windows.net"
    "https" "acct" "YWJj" "core.windows.net" (by decide) (by decide) (by decide) (by decide) (by decide)
    (Or.inl (by decide)) (by decide) (by decide) (by decide) (by decide) (by decide) (by decide)

end ImageApp
